import Mathlib

/-!
Verification development for the pls certificate tool.

Shallow embedding of the Rust sources:
  src/pem/parser.rs      (PEM scanner, label classification, per-block decode)
  src/x509/parser.rs     (parse_pem / parse_der / parse_auto)
  src/x509.rs            (SimpleCert / SimpleCsr normalization, fingerprints)
  src/commands/parse.rs  (Parse::run pipeline and ParseResult)
  src/commands/connect.rs (parse_host, chain extraction, verify outcome)
  src/commands/mod.rs    (Format::from_args)

Buffers are lists of characters (inputs of interest are ASCII, so characters
coincide with the bytes the Rust code scans).  Decoded payload bytes are
natural numbers, reduced mod 256 where their value matters.  External
cryptographic-library entry points (DER decoding, digests, canonical PEM
re-encoding) and the network (socket-address parsing, URL parsing, DNS)
are modeled as explicit oracle records, exactly mirroring the call points
of the source; the embedded functions are parametric in those oracles.
A Rust panic (unwrap failure, todo!, unimplemented!) is modeled as the
value none of an Option-typed result.
-/

namespace Pls

/-- A raw input buffer, as scanned by the PEM regex (byte buffer; ASCII). -/
abbrev Buffer := List Char

/-- Decoded binary payloads, for example DER bytes. -/
abbrev Bytes := List Nat

/-- The bytes of a buffer, for library entry points that consume raw bytes. -/
def bufferBytes (s : Buffer) : Bytes := s.map Char.toNat

/-- Lower-case hexadecimal digit for a nibble, as the hex crate renders it. -/
def hexDigitChar (n : Nat) : Char :=
  if n < 10 then Char.ofNat (48 + n) else Char.ofNat (87 + n)

/-- Character list of the lower-case, no-separator hex encoding of bytes:
the encoding used by hex::encode throughout src/x509.rs (high nibble
first, then low nibble, per byte). -/
def hexChars : Bytes → List Char
  | [] => []
  | b :: rest => hexDigitChar (b % 256 / 16) :: hexDigitChar (b % 256 % 16) :: hexChars rest

/-- hex::encode. -/
def hexEncode (bs : Bytes) : String := String.mk (hexChars bs)

/-- Index of the first occurrence of a needle in a haystack (memmem::find,
and the anchor search a regex engine performs for a literal prefix). -/
def findSub (needle : List Char) : List Char → Option Nat
  | [] => if needle = [] then some 0 else none
  | c :: rest =>
    if needle.isPrefixOf (c :: rest) then some 0
    else (findSub needle (rest)).map (· + 1)

/-- The literal fragment opening every PEM BEGIN marker. -/
def beginTag : List Char := "-----BEGIN ".data

/-- Five dashes, closing a marker's label. -/
def dashes5 : List Char := "-----".data

/-- The literal fragment opening every PEM END marker. -/
def endTag : List Char := "-----END ".data

/-- One capture of PEM_REGEX (src/pem/parser.rs lines 11-18):
the header label, the raw payload between the markers (capture cert_data),
and the whole matched source text (capture pem, the span). -/
structure PemMatch where
  headerLabel : List Char
  certData : List Char
  span : List Char
  deriving DecidableEq, Repr

/-- One leftmost match attempt of PEM_REGEX from the start of s, with the
remaining input after the match.  Mirrors the regex
-----BEGIN (.*?)-----(?:\n|\\n)?(.*?)(?:\n|\\n)?-----END .*?-----
with dot_matches_new_line: the label is closed by the first five dashes
after the BEGIN fragment, the non-greedy payload ends at the earliest END
fragment (the optional trailing group preferring to absorb a literal
backslash-n, then a newline, making the payload shortest), and the match
ends at the first five dashes after the END fragment.  A failed stage
returns none; a failure from one start position implies failure from every
later one (all searches run over suffixes), so scanning stops. -/
def scanStep (s : List Char) : Option (PemMatch × List Char) :=
  match findSub beginTag s with
  | none => none
  | some i =>
    let afterBegin := s.drop (i + 11)
    match findSub dashes5 afterBegin with
    | none => none
    | some j =>
      let label := afterBegin.take j
      let afterLabel := afterBegin.drop (j + 5)
      let step :=
        match afterLabel with
        | '\n' :: rest => (1, rest)
        | '\\' :: 'n' :: rest => (2, rest)
        | l => (0, l)
      let nlLen := step.1
      let body := step.2
      match findSub endTag body with
      | none => none
      | some k =>
        let rawData := body.take k
        let certData :=
          match rawData.reverse with
          | 'n' :: '\\' :: _ => rawData.take (rawData.length - 2)
          | '\n' :: _ => rawData.take (rawData.length - 1)
          | _ => rawData
        let afterEnd := body.drop (k + 9)
        match findSub dashes5 afterEnd with
        | none => none
        | some m =>
          let stop := i + 11 + j + 5 + nlLen + k + 9 + m + 5
          some (⟨label, certData, (s.drop i).take (stop - i)⟩, s.drop stop)

/-- Iterated non-overlapping matching (captures_iter), fueled by the buffer
length; every match consumes at least one character, so the fuel never runs
out before the matches do. -/
def pemMatchesAux : Nat → List Char → List PemMatch
  | 0, _ => []
  | fuel + 1, s =>
    match scanStep s with
    | none => []
    | some (m, rest) => m :: pemMatchesAux fuel rest

/-- All matches of PEM_REGEX over a buffer. -/
def pemMatches (s : Buffer) : List PemMatch := pemMatchesAux s.length s

/-- Whitespace as matched by the byte-regex class backslash-s:
space, tab, newline, vertical tab, form feed, carriage return. -/
def isRegexSpace (c : Char) : Bool :=
  c = ' ' || c = '\t' || c = '\n' || c = Char.ofNat 11 || c = Char.ofNat 12 || c = '\r'

/-- REMOVE_WHITESPACE (src/pem/parser.rs lines 20-21): replace every run of
whitespace or literal two-character backslash-n escapes with nothing.
replace_all does not rescan its output, which this left-to-right recursion
reproduces exactly. -/
def removeWhitespace : List Char → List Char
  | [] => []
  | '\\' :: 'n' :: rest => removeWhitespace rest
  | c :: rest =>
    if isRegexSpace c then removeWhitespace rest else c :: removeWhitespace rest

/-- Value of a base64 alphabet character. -/
def b64Val (c : Char) : Option Nat :=
  if 'A' ≤ c ∧ c ≤ 'Z' then some (c.toNat - 65)
  else if 'a' ≤ c ∧ c ≤ 'z' then some (c.toNat - 97 + 26)
  else if '0' ≤ c ∧ c ≤ '9' then some (c.toNat - 48 + 52)
  else if c = '+' then some 62
  else if c = '/' then some 63
  else none

/-- boring::base64::decode_block: strict base64 of a whitespace-free string,
four-character groups, padding only at the very end; anything else fails. -/
def base64Decode : List Char → Option Bytes
  | [] => some []
  | a :: b :: c :: d :: rest =>
    match b64Val a, b64Val b with
    | some va, some vb =>
      if c = '=' then
        if d = '=' ∧ rest = [] then some [va * 4 + vb / 16] else none
      else
        match b64Val c with
        | none => none
        | some vc =>
          if d = '=' then
            if rest = [] then some [va * 4 + vb / 16, vb % 16 * 16 + vc / 4] else none
          else
            match b64Val d with
            | none => none
            | some vd =>
              (base64Decode rest).map
                (fun tl => (va * 4 + vb / 16) :: (vb % 16 * 16 + vc / 4) :: (vc % 4 * 64 + vd) :: tl)
    | _, _ => none
  | _ => none

/-- Decoded library-native objects, identified by their DER bytes; the
external library is the authority on whether the bytes decode. -/
abbrev Cert := Bytes

/-- A decoded certificate signing request. -/
abbrev Csr := Bytes

/-- A decoded subject-public-key-info key. -/
abbrev PubKeyObj := Bytes

/-- A decoded PKCS#1 RSA public key. -/
abbrev RsaPubObj := Bytes

/-- A decoded PKCS#1 RSA private key. -/
abbrev RsaPrivObj := Bytes

/-- A decoded PKCS#8 private key. -/
abbrev PrivKeyObj := Bytes

/-- A decoded SEC1 EC private key. -/
abbrev EcPrivObj := Bytes

/-- Digest algorithms selected in src/x509.rs. -/
inductive DigestAlg
  | sha256
  | sha1
  | md5
  deriving DecidableEq, Repr

/-- Oracle for the external cryptographic library (boring): the DER decode
entry points called by Pem::try_from, plus the certificate operations
SimpleCert::from and SimpleCsr::from invoke.  digest hashes the full DER
encoding of the certificate; toPem and csrToPem are the canonical PEM
re-encodings (X509::to_pem / X509Req::to_pem). -/
structure BoringLib where
  x509FromDer : Bytes → Option Cert
  x509ReqFromDer : Bytes → Option Csr
  publicKeyFromDer : Bytes → Option PubKeyObj
  rsaPublicKeyFromDer : Bytes → Option RsaPubObj
  rsaPrivateKeyFromDer : Bytes → Option RsaPrivObj
  privateKeyFromDer : Bytes → Option PrivKeyObj
  ecPrivateKeyFromDer : Bytes → Option EcPrivObj
  digest : DigestAlg → Cert → Bytes
  toPem : Cert → String
  csrToPem : Csr → String

/-- PEM labels (src/pem/parser.rs enum Label). -/
inductive Label
  | certificate
  | certificateRequest
  | publicKey
  | rsaPublicKey
  | rsaPrivateKey
  | privateKey
  | ecPrivateKey
  | unknown (s : String)
  deriving DecidableEq, Repr

/-- FromStr for Label: the fixed verbatim table; anything else is Unknown
(the parse itself is infallible). -/
def Label.fromStr (s : String) : Label :=
  if s = "CERTIFICATE" then .certificate
  else if s = "CERTIFICATE REQUEST" then .certificateRequest
  else if s = "PUBLIC KEY" then .publicKey
  else if s = "RSA PUBLIC KEY" then .rsaPublicKey
  else if s = "RSA PRIVATE KEY" then .rsaPrivateKey
  else if s = "PRIVATE KEY" then .privateKey
  else if s = "EC PRIVATE KEY" then .ecPrivateKey
  else .unknown s

/-- A scanned raw PEM block (struct RawPem): source span (kept as the
matched source text), header label, base64-decoded payload. -/
structure RawPem where
  span : List Char
  label : String
  data : Bytes
  deriving DecidableEq, Repr

/-- extract_raw_pems (src/pem/parser.rs lines 23-39): for every regex
capture, strip whitespace and literal backslash-n escapes from the payload
and base64-decode it; a malformed payload fails only its own block. -/
def extractRawPems (s : Buffer) : List (Except String RawPem) :=
  (pemMatches s).map fun m =>
    match base64Decode (removeWhitespace m.certData) with
    | none => .error "base64 decode failure"
    | some data => .ok ⟨m.span, String.mk m.headerLabel, data⟩

/-- enum ParsedPem: the typed decoded entity. -/
inductive ParsedPem
  | cert (c : Cert)
  | certReq (r : Csr)
  | publicKey (k : PubKeyObj)
  | rsaPublicKey (k : RsaPubObj)
  | rsaPrivateKey (k : RsaPrivObj)
  | privateKey (k : PrivKeyObj)
  | ecPrivateKey (k : EcPrivObj)
  deriving DecidableEq, Repr

/-- ParsedPem::into_cert. -/
def ParsedPem.intoCert : ParsedPem → Option Cert
  | .cert c => some c
  | _ => none

/-- ParsedPem::into_cert_req. -/
def ParsedPem.intoCertReq : ParsedPem → Option Csr
  | .certReq r => some r
  | _ => none

/-- True on the five key variants: exactly the variants the Parse::run
match falls through to todo!() on. -/
def ParsedPem.isKey : ParsedPem → Bool
  | .cert _ => false
  | .certReq _ => false
  | _ => true

/-- struct Pem: span, parsed label and decoded entity. -/
structure Pem where
  span : List Char
  label : Label
  parsed : ParsedPem
  deriving DecidableEq, Repr

/-- TryFrom RawPem for Pem (src/pem/parser.rs lines 77-102): classify the
label and hand the DER payload to the library entry point for that kind;
an unknown label or a library decode failure is an error scoped to this
block. -/
def Pem.tryFrom (lib : BoringLib) (raw : RawPem) : Except String Pem :=
  match Label.fromStr raw.label with
  | .certificate =>
    match lib.x509FromDer raw.data with
    | some c => .ok ⟨raw.span, Label.fromStr raw.label, .cert c⟩
    | none => .error "X509::from_der failure"
  | .certificateRequest =>
    match lib.x509ReqFromDer raw.data with
    | some r => .ok ⟨raw.span, Label.fromStr raw.label, .certReq r⟩
    | none => .error "X509Req::from_der failure"
  | .publicKey =>
    match lib.publicKeyFromDer raw.data with
    | some k => .ok ⟨raw.span, Label.fromStr raw.label, .publicKey k⟩
    | none => .error "PKey::public_key_from_der failure"
  | .rsaPublicKey =>
    match lib.rsaPublicKeyFromDer raw.data with
    | some k => .ok ⟨raw.span, Label.fromStr raw.label, .rsaPublicKey k⟩
    | none => .error "Rsa::public_key_from_der failure"
  | .rsaPrivateKey =>
    match lib.rsaPrivateKeyFromDer raw.data with
    | some k => .ok ⟨raw.span, Label.fromStr raw.label, .rsaPrivateKey k⟩
    | none => .error "Rsa::private_key_from_der failure"
  | .privateKey =>
    match lib.privateKeyFromDer raw.data with
    | some k => .ok ⟨raw.span, Label.fromStr raw.label, .privateKey k⟩
    | none => .error "PKey::private_key_from_der failure"
  | .ecPrivateKey =>
    match lib.ecPrivateKeyFromDer raw.data with
    | some k => .ok ⟨raw.span, Label.fromStr raw.label, .ecPrivateKey k⟩
    | none => .error "EcKey::private_key_from_der failure"
  | .unknown s => .error ("Unknown PEM label: " ++ s)

/-- Ok projection of a Result, as Iterator::flatten uses it. -/
def exceptOk {ε α : Type} : Except ε α → Option α
  | .ok a => some a
  | .error _ => none

/-- parse_pems (src/pem/parser.rs lines 41-43): drop raw blocks whose
base64 failed, then classify and decode each remaining block. -/
def parsePems (lib : BoringLib) (s : Buffer) : List (Except String Pem) :=
  ((extractRawPems s).filterMap exceptOk).map (Pem.tryFrom lib)

/-- The successfully scanned, decoded and classified blocks of a buffer:
parse_pems(&data).flatten(), as consumed by the Parse::run loop. -/
def okPems (lib : BoringLib) (s : Buffer) : List Pem :=
  (parsePems lib s).filterMap exceptOk

/-- Validity (src/x509.rs lines 316-324), restricted to the verification
outcome fields every claim is about.  The absolute instants and the
relative second counts are renderings of library timestamps against the
build-time clock and are used by no claim; From an X509 always leaves the
two fields below unset (lines 337-338). -/
structure Validity where
  valid : Option Bool
  verifyResult : Option String
  deriving DecidableEq, Repr

/-- struct Fingerprints (src/x509.rs lines 179-184). -/
structure Fingerprints where
  sha256 : String
  sha1 : String
  md5 : String
  deriving DecidableEq, Repr

/-- SimpleCert (src/x509.rs lines 22-40), restricted to the fields the
claims are about: the validity outcome, the three digest fingerprints, and
the pem field.  The remaining fields (subject, issuer, serial, key usage,
signature, public key) are verbatim library renderings used by no claim. -/
structure SimpleCert where
  validity : Validity
  fingerprints : Fingerprints
  pem : String
  deriving DecidableEq, Repr

/-- From X509 for SimpleCert (src/x509.rs lines 53-98): the fingerprints
are the lower-case hex encodings of the three digests of the full DER
encoding, the pem field is the canonical re-encoding cert.to_pem() (not
any source span), and the validity outcome fields start unset. -/
def SimpleCert.fromX509 (lib : BoringLib) (cert : Cert) : SimpleCert :=
  { validity := { valid := none, verifyResult := none }
    fingerprints :=
      { sha256 := hexEncode (lib.digest .sha256 cert)
        sha1 := hexEncode (lib.digest .sha1 cert)
        md5 := hexEncode (lib.digest .md5 cert) }
    pem := lib.toPem cert }

/-- SimpleCert::apply_verify_result (src/x509.rs lines 43-50): an Err sets
valid to false and records the rendered reason; an Ok sets valid to true
and touches nothing else. -/
def SimpleCert.applyVerifyResult (c : SimpleCert) (r : Except String Unit) : SimpleCert :=
  match r with
  | .error err =>
    { c with validity := { c.validity with valid := some false, verifyResult := some err } }
  | .ok _ =>
    { c with validity := { c.validity with valid := some true } }

/-- SimpleCsr (src/x509.rs lines 673-680), restricted to the pem field;
subject, public key and signature are library renderings used by no
claim. -/
structure SimpleCsr where
  pem : String
  deriving DecidableEq, Repr

/-- From X509Req for SimpleCsr (src/x509.rs lines 705-724): the pem field
is the canonical re-encoding csr.to_pem(). -/
def SimpleCsr.fromX509Req (lib : BoringLib) (csr : Csr) : SimpleCsr :=
  { pem := lib.csrToPem csr }

/-- struct ParseResult (src/commands/parse.rs lines 80-84). -/
structure ParseResult where
  certs : List SimpleCert
  csrs : List SimpleCsr
  deriving DecidableEq, Repr

/-- The field names ParseResult's derived Serialize emits in JSON mode:
exactly its two declared fields, in declaration order. -/
def ParseResult.jsonKeys : List String := ["certs", "csrs"]

/-- One iteration of the Parse::run entity loop (src/commands/parse.rs
lines 53-59): a certificate or CSR is normalized and pushed; every other
variant hits todo!(), which panics (modeled as none). -/
def pushEntity (lib : BoringLib) (r : ParseResult) : ParsedPem → Option ParseResult
  | .cert c => some { r with certs := r.certs ++ [SimpleCert.fromX509 lib c] }
  | .certReq q => some { r with csrs := r.csrs ++ [SimpleCsr.fromX509Req lib q] }
  | _ => none

/-- The Parse::run pipeline on an already-read buffer (src/commands/parse.rs
lines 51-59): fold the entity loop over the successfully decoded blocks,
aborting (none, a panic) at the first key-typed block. -/
def parseRunPipeline (lib : BoringLib) (data : Buffer) : Option ParseResult :=
  ((okPems lib data).map Pem.parsed).foldlM (pushEntity lib) ⟨[], []⟩

/-- Output modes (src/commands/mod.rs enum Format). -/
inductive Format
  | text
  | json
  | pem
  deriving DecidableEq, Repr

/-- Format::from_args (src/commands/mod.rs lines 19-29), with the terminal
probe stdout().is_terminal() passed explicitly. -/
def Format.fromArgs (text json pem isTerminal : Bool) : Format :=
  let printJson := json || (!text && !pem && !isTerminal)
  if printJson then .json
  else if pem then .pem
  else .text

/-- The PEM-mode branch of print_certs (src/components/x509.rs lines
537-541): print each cert's pem field, concatenated in order. -/
def printCertsPemMode (certs : List SimpleCert) : String :=
  String.join (certs.map SimpleCert.pem)

/-- The PEM-mode branch of print_csrs (src/components/x509.rs lines
513-517). -/
def printCsrsPemMode (csrs : List SimpleCsr) : String :=
  String.join (csrs.map SimpleCsr.pem)

/-- What a Parse::run invocation produced. -/
inductive RunOutcome
  | printedHelp
  | output (fmt : Format) (r : ParseResult)
  deriving DecidableEq, Repr

/-- How a Parse::run invocation ended. -/
inductive RunResult
  | panic
  | ioError
  | ok (o : RunOutcome)
  deriving DecidableEq, Repr

/-- Parse::run (src/commands/parse.rs lines 28-77): read the file when an
argument was given; otherwise, when stdin is an interactive terminal, print
the long help and return Ok without reading any input; otherwise read
stdin.  The pipeline then runs on the buffer. -/
def parseRun (lib : BoringLib) (file : Option (Except Unit Buffer))
    (stdinIsTerminal : Bool) (stdinData : Buffer) (fmt : Format) : RunResult :=
  match file with
  | some (.error _) => .ioError
  | some (.ok data) =>
    match parseRunPipeline lib data with
    | none => .panic
    | some r => .ok (.output fmt r)
  | none =>
    if stdinIsTerminal then .ok .printedHelp
    else
      match parseRunPipeline lib stdinData with
      | none => .panic
      | some r => .ok (.output fmt r)

/-- BEGIN_MARKER (src/x509/parser.rs line 5). -/
def BEGIN_MARKER : List Char := "-----BEGIN CERTIFICATE-----".data

/-- END_MARKER (src/x509/parser.rs line 6). -/
def END_MARKER : List Char := "-----END CERTIFICATE-----".data

/-- find_cert_boundries_raw (src/x509/parser.rs lines 33-39): for every
occurrence of BEGIN_MARKER (memmem::find_iter, non-overlapping), find the
first END_MARKER in the suffix starting at it; a BEGIN with no following
END is skipped (filter_map).  Fueled by the buffer length; each iteration
advances past a whole BEGIN marker. -/
def findCertBoundriesAux (fuel : Nat) (s : List Char) (base : Nat) : List (Nat × Nat) :=
  match fuel with
  | 0 => []
  | fuel + 1 =>
    match findSub BEGIN_MARKER s with
    | none => []
    | some b =>
      let rest := s.drop (b + 27)
      let tail := findCertBoundriesAux fuel rest (base + b + 27)
      match findSub END_MARKER (s.drop b) with
      | none => tail
      | some e => (base + b, base + b + e + 25) :: tail

/-- All (begin, end) certificate boundaries of a buffer. -/
def findCertBoundriesRaw (s : Buffer) : List (Nat × Nat) :=
  findCertBoundriesAux s.length s 0

/-- u8::is_ascii_whitespace: space, tab, newline, form feed, carriage
return. -/
def isAsciiWhitespaceByte (c : Char) : Bool :=
  c = ' ' || c = '\t' || c = '\n' || c = Char.ofNat 12 || c = '\r'

/-- str::replace of the two-character literal backslash-n with nothing:
left-to-right, non-overlapping, non-rescanning. -/
def removeEscapedNewlines : List Char → List Char
  | [] => []
  | '\\' :: 'n' :: rest => removeEscapedNewlines rest
  | c :: rest => c :: removeEscapedNewlines rest

/-- clean_cert_lines (src/x509/parser.rs lines 41-50): drop every ASCII
whitespace byte, then remove every literal two-character backslash-n
sequence. -/
def cleanCertLines (seg : List Char) : List Char :=
  removeEscapedNewlines (seg.filter fun c => !isAsciiWhitespaceByte c)

/-- parse_pem (src/x509/parser.rs lines 9-19): for each boundary pair,
clean and base64-decode the text strictly between the markers, then DER
decode; collect into a Result, so the first failing block aborts with an
error (unlike the parse_pems pipeline, which skips).  The sliced segment
runs from begin + 27 through end - 25 - 1 inclusive. -/
def parsePem (lib : BoringLib) (data : Buffer) : Except String (List Cert) :=
  (findCertBoundriesRaw data).mapM fun be =>
    let seg := (data.drop (be.1 + 27)).take (be.2 - 25 - (be.1 + 27))
    match base64Decode (cleanCertLines seg) with
    | none => .error "Failed to decode base64 certificate"
    | some der =>
      match lib.x509FromDer der with
      | none => .error "Failed to parse PEM certificate"
      | some c => .ok c

/-- parse_der (src/x509/parser.rs lines 22-26): decode the whole buffer as
one DER certificate. -/
def parseDer (lib : BoringLib) (data : Buffer) : Except String (List Cert) :=
  match lib.x509FromDer (bufferBytes data) with
  | none => .error "Failed to parse DER certificate"
  | some c => .ok [c]

/-- parse_auto (src/x509/parser.rs lines 29-31): parse_pem, falling back to
parse_der only when parse_pem returned an error. -/
def parseAuto (lib : BoringLib) (data : Buffer) : Except String (List Cert) :=
  match parsePem lib data with
  | .ok cs => .ok cs
  | .error _ => parseDer lib data

/-- A resolved socket address; the ip field is the rendered string form of
the IP (what addr.ip().to_string() returns). -/
structure SockAddr where
  ip : String
  port : Nat
  deriving DecidableEq, Repr

/-- A parsed URL as parse_host consumes it: the optional host component,
and socket_addrs, the library's DNS resolution of the URL's own host and
port given a default port to use when the URL carries none (none models a
resolution error; url.socket_addrs is called with the default 443). -/
structure UrlObj where
  host : Option String
  socketAddrs : Nat → Option (List SockAddr)

/-- Oracle for the host-string parsers and system DNS used by parse_host:
str::parse to SocketAddr, Url::parse, and (host, port).to_socket_addrs
(none models a resolution error). -/
structure NetLib where
  parseSocketAddr : String → Option SockAddr
  parseUrl : String → Option UrlObj
  toSocketAddrs : String → Nat → Option (List SockAddr)

/-- u16::from_str: an optional leading plus sign, then one or more decimal
digits, value at most 65535. -/
def parseU16 (s : String) : Option Nat :=
  let ds := match s.data with
    | '+' :: rest => rest
    | l => l
  if ds = [] then none
  else if ds.all Char.isDigit then
    let v := ds.foldl (fun acc c => acc * 10 + (c.toNat - 48)) 0
    if v ≤ 65535 then some v else none
  else none

/-- str::split on a separator character: Rust semantics, where a trailing
separator yields a final empty segment and the empty string yields one
empty segment. -/
def splitOnChar (sep : Char) : List Char → List (List Char)
  | [] => [[]]
  | c :: rest =>
    if c = sep then [] :: splitOnChar sep rest
    else
      match splitOnChar sep rest with
      | [] => [[c]]
      | g :: gs => (c :: g) :: gs

/-- The terminal DNS step of parse_host (src/commands/connect.rs lines
153-158): resolve the hostname, unwrap the result and take the first
address with another unwrap; either unwrap panics (none) on failure. -/
def resolveDns (net : NetLib) (hostname : String) (port : Nat) :
    Option (String × SockAddr) :=
  match net.toSocketAddrs hostname port with
  | none => none
  | some [] => none
  | some (a :: _) => some (hostname, a)

/-- The colon-split fallback of parse_host (src/commands/connect.rs lines
143-151): host.split(on colon).nth(1) is the port text when present — the
segment between the first and second colon — parsed as u16 with a panicking
unwrap; the hostname is the segment before the first colon; with no colon
the whole input is the hostname and the port is 443. -/
def parseHostFallback (net : NetLib) (host : String) : Option (String × SockAddr) :=
  let parts := splitOnChar ':' host.data
  match parts.get? 1 with
  | some portStr =>
    match parseU16 (String.mk portStr) with
    | none => none
    | some port => resolveDns net (String.mk (parts.headD [])) port
  | none => resolveDns net host 443

/-- parse_host (src/commands/connect.rs lines 123-159).  Tie-break order:
a literal socket address is used directly with the IP's rendered string as
hostname and no DNS; else a URL with a present host component resolves via
url.socket_addrs with default port 443, unwrapping the result and indexing
its first element (either step panics on failure); else the colon-split
fallback. -/
def parseHost (net : NetLib) (host : String) : Option (String × SockAddr) :=
  match net.parseSocketAddr host with
  | some addr => some (addr.ip, addr)
  | none =>
    match net.parseUrl host with
    | some url =>
      match url.host with
      | some h =>
        match url.socketAddrs 443 with
        | none => none
        | some [] => none
        | some (a :: _) => some (h, a)
      | none => parseHostFallback net host
    | none => parseHostFallback net host

/-- Split at the first occurrence of a colon: text before it, and the
entire remainder after it when one exists. -/
def splitFirstColon : List Char → List Char × Option (List Char)
  | [] => ([], none)
  | c :: rest =>
    if c = ':' then ([], some rest)
    else
      let p := splitFirstColon rest
      (c :: p.1, p.2)

/-- The host-splitting step exactly as the claim words it, for comparison
with parseHost: the input is split ON THE FIRST colon into host and port,
the port being the entire remainder after that colon (default 443 when no
colon is present); branches (a) and (b) are as in parseHost. -/
def parseHostClaimed (net : NetLib) (host : String) : Option (String × SockAddr) :=
  let fallback :=
    match splitFirstColon host.data with
    | (_, none) => resolveDns net host 443
    | (h, some p) =>
      match parseU16 (String.mk p) with
      | none => none
      | some port => resolveDns net (String.mk h) port
  match net.parseSocketAddr host with
  | some addr => some (addr.ip, addr)
  | none =>
    match net.parseUrl host with
    | some url =>
      match url.host with
      | some h =>
        match url.socketAddrs 443 with
        | none => none
        | some [] => none
        | some (a :: _) => some (h, a)
      | none => fallback
    | none => fallback

/-- The WebPKI-mode certificate extraction of Connect::run
(src/commands/connect.rs lines 90-104): in chain mode normalize the whole
peer chain in presentation order, otherwise normalize the single peer
certificate; then apply the handshake's verification outcome to the first
certificate only, when one exists. -/
def connectExtractCerts (lib : BoringLib) (chainMode : Bool)
    (peerChain : List Cert) (peerCert : Cert) (verify : Except String Unit) :
    List SimpleCert :=
  let certs :=
    if chainMode then peerChain.map (SimpleCert.fromX509 lib)
    else [SimpleCert.fromX509 lib peerCert]
  match certs with
  | [] => []
  | c :: rest => c.applyVerifyResult verify :: rest

/-- The end-to-end handling of one regex match: base64-decode the cleaned
payload, then classify and library-decode; none when the block fails at
any stage.  Composition of the per-element steps of extractRawPems and
parsePems. -/
def decodeOne (lib : BoringLib) (m : PemMatch) : Option Pem :=
  match base64Decode (removeWhitespace m.certData) with
  | none => none
  | some data => exceptOk (Pem.tryFrom lib ⟨m.span, String.mk m.headerLabel, data⟩)

/-- The lower-case hexadecimal alphabet. -/
def hexAlphabet : List Char := "0123456789abcdef".data

lemma hexDigitChar_mem_hexAlphabet {n : Nat} (h : n < 16) :
    hexDigitChar n ∈ hexAlphabet := by
  interval_cases n <;> decide

lemma mem_hexChars_mem_hexAlphabet (bs : Bytes) :
    ∀ c ∈ hexChars bs, c ∈ hexAlphabet := by
  induction bs with
  | nil => intro c hc; cases hc
  | cons b rest ih =>
    intro c hc
    have hb : b % 256 < 256 := Nat.mod_lt _ (by norm_num)
    rcases hc with _ | ⟨_, hc⟩
    · exact hexDigitChar_mem_hexAlphabet (Nat.div_lt_of_lt_mul (by omega))
    · rcases hc with _ | ⟨_, hc⟩
      · exact hexDigitChar_mem_hexAlphabet (Nat.mod_lt _ (by norm_num))
      · exact ih c hc

lemma findSub_sound (n : List Char) :
    ∀ (h : List Char) (j : Nat), findSub n h = some j →
      n.isPrefixOf (h.drop j) = true := by
  intro h
  induction h with
  | nil =>
    intro j hj
    by_cases hn : n = ([] : List Char)
    · subst hn; simp [findSub] at hj; subst hj; simp
    · simp [findSub, hn] at hj
  | cons c rest ih =>
    intro j hj
    by_cases hp : n.isPrefixOf (c :: rest) = true
    · simp [findSub, hp] at hj; subst hj; simpa using hp
    · simp [findSub, hp] at hj
      obtain ⟨j0, hj0, rfl⟩ := hj
      simpa using ih j0 hj0

lemma findSub_complete (n : List Char) :
    ∀ (h : List Char) (i : Nat), n.isPrefixOf (h.drop i) = true →
      (findSub n h).isSome = true := by
  intro h
  induction h with
  | nil =>
    intro i hi
    simp at hi
    have : n = ([] : List Char) := by
      cases n with
      | nil => rfl
      | cons a as => simp [List.isPrefixOf] at hi
    subst this
    simp [findSub]
  | cons c rest ih =>
    intro i hi
    by_cases hp : n.isPrefixOf (c :: rest) = true
    · simp [findSub, hp]
    · cases i with
      | zero => rw [List.drop_zero] at hi; exact absurd hi hp
      | succ i0 =>
        have := ih i0 (by simpa using hi)
        simp [findSub, hp]
        simpa [Option.isSome] using this

lemma findSub_none_mono {n n' h : List Char} (hpre : n.isPrefixOf n' = true)
    (hn : findSub n h = none) : findSub n' h = none := by
  cases hfind : findSub n' h with
  | none => rfl
  | some j =>
    have h1 : n'.isPrefixOf (h.drop j) = true := findSub_sound n' h j hfind
    have h2 : n.isPrefixOf (h.drop j) = true := by
      have ha : n <+: n' := by simpa using hpre
      have hb : n' <+: h.drop j := by simpa using h1
      simpa using ha.trans hb
    have := findSub_complete n h j h2
    rw [hn] at this
    simp at this

lemma pemMatches_eq_nil (s : Buffer) (h : findSub beginTag s = none) :
    pemMatches s = [] := by
  have hs : scanStep s = none := by unfold scanStep; rw [h]
  unfold pemMatches
  cases s.length with
  | zero => rfl
  | succ n => unfold pemMatchesAux; rw [hs]

lemma findCertBoundriesRaw_eq_nil (s : Buffer)
    (h : findSub BEGIN_MARKER s = none) : findCertBoundriesRaw s = [] := by
  unfold findCertBoundriesRaw
  cases s.length with
  | zero => rfl
  | succ n => unfold findCertBoundriesAux; rw [h]

lemma okPems_eq_filterMap_decodeOne (lib : BoringLib) (s : Buffer) :
    okPems lib s = (pemMatches s).filterMap (decodeOne lib) := by
  unfold okPems parsePems extractRawPems
  induction pemMatches s with
  | nil => rfl
  | cons m rest ih =>
    simp only [List.map_cons]
    cases hb : base64Decode (removeWhitespace m.certData) with
    | none =>
      simp only [List.filterMap_cons, exceptOk, decodeOne, hb]
      exact ih
    | some data =>
      simp only [List.filterMap_cons, exceptOk, decodeOne, hb, List.map_cons]
      cases ht : Pem.tryFrom lib ⟨m.span, String.mk m.headerLabel, data⟩ with
      | ok p =>
        simp only [ht, List.filterMap_cons, exceptOk]
        rw [ih]
      | error e =>
        simp only [ht, List.filterMap_cons, exceptOk]
        exact ih

lemma foldPushEntity_some (lib : BoringLib) :
    ∀ (l : List ParsedPem) (r0 r : ParseResult),
      l.foldlM (pushEntity lib) r0 = some r →
      r.certs = r0.certs ++ (l.filterMap ParsedPem.intoCert).map (SimpleCert.fromX509 lib)
      ∧ r.csrs = r0.csrs ++ (l.filterMap ParsedPem.intoCertReq).map (SimpleCsr.fromX509Req lib) := by
  intro l
  induction l with
  | nil =>
    intro r0 r hr
    simp [List.foldlM] at hr
    subst hr
    simp
  | cons p rest ih =>
    intro r0 r hr
    rw [List.foldlM_cons] at hr
    cases p with
    | cert c =>
      simp only [pushEntity, Option.some_bind] at hr
      have := ih _ r hr
      simpa [List.filterMap_cons, ParsedPem.intoCert, ParsedPem.intoCertReq] using this
    | certReq q =>
      simp only [pushEntity, Option.some_bind] at hr
      have := ih _ r hr
      simpa [List.filterMap_cons, ParsedPem.intoCert, ParsedPem.intoCertReq] using this
    | publicKey k => simp [pushEntity] at hr
    | rsaPublicKey k => simp [pushEntity] at hr
    | rsaPrivateKey k => simp [pushEntity] at hr
    | privateKey k => simp [pushEntity] at hr
    | ecPrivateKey k => simp [pushEntity] at hr

lemma foldPushEntity_isSome (lib : BoringLib) :
    ∀ (l : List ParsedPem) (r0 : ParseResult),
      (∀ p ∈ l, p.isKey = false) →
      (l.foldlM (pushEntity lib) r0).isSome = true := by
  intro l
  induction l with
  | nil => intro r0 _; simp [List.foldlM]
  | cons p rest ih =>
    intro r0 hall
    rw [List.foldlM_cons]
    cases p with
    | cert c => simpa [pushEntity] using ih _ (fun q hq => hall q (by simp [hq]))
    | certReq q => simpa [pushEntity] using ih _ (fun q hq => hall q (by simp [hq]))
    | publicKey k =>
      have hfalse := hall (ParsedPem.publicKey k) (by simp)
      simp [ParsedPem.isKey] at hfalse
    | rsaPublicKey k =>
      have hfalse := hall (ParsedPem.rsaPublicKey k) (by simp)
      simp [ParsedPem.isKey] at hfalse
    | rsaPrivateKey k =>
      have hfalse := hall (ParsedPem.rsaPrivateKey k) (by simp)
      simp [ParsedPem.isKey] at hfalse
    | privateKey k =>
      have hfalse := hall (ParsedPem.privateKey k) (by simp)
      simp [ParsedPem.isKey] at hfalse
    | ecPrivateKey k =>
      have hfalse := hall (ParsedPem.ecPrivateKey k) (by simp)
      simp [ParsedPem.isKey] at hfalse

lemma foldPushEntity_none_of_key (lib : BoringLib) :
    ∀ (l : List ParsedPem) (r0 : ParseResult),
      (∃ p ∈ l, p.isKey = true) →
      l.foldlM (pushEntity lib) r0 = none := by
  intro l
  induction l with
  | nil => intro r0 h; simp at h
  | cons p rest ih =>
    intro r0 h
    rw [List.foldlM_cons]
    cases p with
    | cert c =>
      have : ∃ q ∈ rest, q.isKey = true := by
        obtain ⟨q, hq, hkey⟩ := h
        rcases hq with _ | ⟨_, hq⟩
        · simp [ParsedPem.isKey] at hkey
        · exact ⟨q, hq, hkey⟩
      simpa [pushEntity] using ih _ this
    | certReq q0 =>
      have : ∃ q ∈ rest, q.isKey = true := by
        obtain ⟨q, hq, hkey⟩ := h
        rcases hq with _ | ⟨_, hq⟩
        · simp [ParsedPem.isKey] at hkey
        · exact ⟨q, hq, hkey⟩
      simpa [pushEntity] using ih _ this
    | publicKey k => simp [pushEntity]
    | rsaPublicKey k => simp [pushEntity]
    | rsaPrivateKey k => simp [pushEntity]
    | privateKey k => simp [pushEntity]
    | ecPrivateKey k => simp [pushEntity]

lemma foldPushEntity_all_not_key (lib : BoringLib) :
    ∀ (l : List ParsedPem) (r0 r : ParseResult),
      l.foldlM (pushEntity lib) r0 = some r →
      ∀ p ∈ l, p.isKey = false := by
  intro l r0 r hr p hp
  by_contra hk
  have : p.isKey = true := by revert hk; cases p.isKey <;> simp
  rw [foldPushEntity_none_of_key lib l r0 ⟨p, hp, this⟩] at hr
  cases hr

lemma filterMap_count_of_not_key :
    ∀ (l : List ParsedPem), (∀ p ∈ l, p.isKey = false) →
      (l.filterMap ParsedPem.intoCert).length
        + (l.filterMap ParsedPem.intoCertReq).length = l.length := by
  intro l
  induction l with
  | nil => intro _; rfl
  | cons p rest ih =>
    intro hall
    have hrest := ih (fun q hq => hall q (by simp [hq]))
    cases p with
    | cert c =>
      simp only [List.filterMap_cons, ParsedPem.intoCert, ParsedPem.intoCertReq,
        List.length_cons]
      omega
    | certReq q =>
      simp only [List.filterMap_cons, ParsedPem.intoCert, ParsedPem.intoCertReq,
        List.length_cons]
      omega
    | publicKey k =>
      have hfalse := hall (ParsedPem.publicKey k) (by simp)
      simp [ParsedPem.isKey] at hfalse
    | rsaPublicKey k =>
      have hfalse := hall (ParsedPem.rsaPublicKey k) (by simp)
      simp [ParsedPem.isKey] at hfalse
    | rsaPrivateKey k =>
      have hfalse := hall (ParsedPem.rsaPrivateKey k) (by simp)
      simp [ParsedPem.isKey] at hfalse
    | privateKey k =>
      have hfalse := hall (ParsedPem.privateKey k) (by simp)
      simp [ParsedPem.isKey] at hfalse
    | ecPrivateKey k =>
      have hfalse := hall (ParsedPem.ecPrivateKey k) (by simp)
      simp [ParsedPem.isKey] at hfalse

lemma splitOnChar_of_no_sep (sep : Char) :
    ∀ (l : List Char), sep ∉ l → splitOnChar sep l = [l] := by
  intro l
  induction l with
  | nil => intro _; rfl
  | cons c rest ih =>
    intro h
    have hc : ¬c = sep := fun hcs => h (by simp [hcs])
    have hrest : sep ∉ rest := fun hm => h (by simp [hm])
    simp only [splitOnChar, if_neg hc, ih hrest]

/-- A concrete library-oracle instantiation for witnesses and
counterexamples: every DER decode succeeds, returning the object
identified by its input bytes; digests are empty; the canonical PEM
re-encodings are fixed strings. -/
def demoLib : BoringLib :=
  { x509FromDer := fun d => some d
    x509ReqFromDer := fun d => some d
    publicKeyFromDer := fun d => some d
    rsaPublicKeyFromDer := fun d => some d
    rsaPrivateKeyFromDer := fun d => some d
    privateKeyFromDer := fun d => some d
    ecPrivateKeyFromDer := fun d => some d
    digest := fun _ _ => []
    toPem := fun _ => "-----BEGIN CERTIFICATE-----\nQUFBQQ==\n-----END CERTIFICATE-----\n"
    csrToPem := fun _ => "" }

/-- A buffer holding one well-formed certificate PEM block. -/
def certBuf : Buffer :=
  "-----BEGIN CERTIFICATE-----\nAAAA\n-----END CERTIFICATE-----\n".data

/-- A buffer holding one well-formed PUBLIC KEY PEM block. -/
def keyBuf : Buffer :=
  "-----BEGIN PUBLIC KEY-----\nAAAA\n-----END PUBLIC KEY-----\n".data

/-- A buffer with no PEM markers at all (raw DER-like content). -/
def derBuf : Buffer := "0123notapem".data

/-- A buffer holding one certificate PEM block whose lines are indented,
so that its source span differs from any canonical re-encoding. -/
def indentedBuf : Buffer :=
  "  -----BEGIN CERTIFICATE-----\n  QUFBQQ==\n  -----END CERTIFICATE-----\n".data

/-- What the pipeline produces from certBuf or indentedBuf under demoLib. -/
def demoCertResult : ParseResult :=
  ⟨[⟨⟨none, none⟩, ⟨"", "", ""⟩,
     "-----BEGIN CERTIFICATE-----\nQUFBQQ==\n-----END CERTIFICATE-----\n"⟩], []⟩

/-- A regex match whose payload is not valid base64. -/
def badMatch : PemMatch := ⟨"CERTIFICATE".data, "!!".data, []⟩

/-- A network-oracle instantiation where nothing parses as a socket
address or URL and DNS resolves every name. -/
def demoNet : NetLib :=
  { parseSocketAddr := fun _ => none
    parseUrl := fun _ => none
    toSocketAddrs := fun _ p => some [⟨"93.184.216.34", p⟩] }

/-- A network-oracle instantiation mirroring Url::parse on scheme-like
inputs: the URL parses but has no host component; DNS resolves every
name. -/
def urlNoHostNet : NetLib :=
  { parseSocketAddr := fun _ => none
    parseUrl := fun _ => some ⟨none, fun _ => none⟩
    toSocketAddrs := fun _ p => some [⟨"127.0.0.1", p⟩] }

/-- A network-oracle instantiation where DNS always fails. -/
def deadNet : NetLib :=
  { parseSocketAddr := fun _ => none
    parseUrl := fun _ => none
    toSocketAddrs := fun _ _ => none }

/-- Modelled from the spec: the fixture certificate test-data/lan-fish.pem
and its DER bytes are not part of the sources under src; the spec and the
test tests::single_pem (src/pem/parser.rs lines 221-239) document that the
SHA-256 digest of its full DER encoding hex-encodes to
876172fb012989edbc93d2c4c34399f1dff9b5e90f0f30b9c6d2ed82ec184620.  These
are the corresponding 32 digest bytes. -/
def lanFishSha256Digest : Bytes :=
  [0x87, 0x61, 0x72, 0xfb, 0x01, 0x29, 0x89, 0xed,
   0xbc, 0x93, 0xd2, 0xc4, 0xc3, 0x43, 0x99, 0xf1,
   0xdf, 0xf9, 0xb5, 0xe9, 0x0f, 0x0f, 0x30, 0xb9,
   0xc6, 0xd2, 0xed, 0x82, 0xec, 0x18, 0x46, 0x20]

/-- C5: under the precondition that at most one of the explicit flags is
set, Format::from_args returns Json when json is set; else Pem when pem is
set; else Text when text is set; else Json when stdout is not an
interactive terminal and Text when it is.  In particular an explicit pem
flag yields Pem regardless of terminal state. -/
theorem c5_format_negotiation (text json pem tty : Bool)
    (h : ¬(text = true ∧ json = true) ∧ ¬(text = true ∧ pem = true)
       ∧ ¬(json = true ∧ pem = true)) :
    Format.fromArgs text json pem tty =
      (if json then Format.json
       else if pem then Format.pem
       else if text then Format.text
       else if tty then Format.text else Format.json) := by
  revert h
  cases text <;> cases json <;> cases pem <;> cases tty <;> decide

/-- C5 witness: with only the pem flag set and stdout a terminal, the
negotiated format is Pem. -/
theorem c5_format_negotiation_witness :
    Format.fromArgs false false true true = Format.pem :=
  c5_format_negotiation false false true true (by decide)

/-- C10: when the parse command has no file argument and standard input is
an interactive terminal, Parse::run returns Ok having printed the long
help, and its result is independent of whatever data stdin might hold (no
input is read). -/
theorem c10_tty_prints_help_ok (lib : BoringLib) (fmt : Format) (d d' : Buffer) :
    parseRun lib none true d fmt = RunResult.ok .printedHelp
    ∧ parseRun lib none true d fmt = parseRun lib none true d' fmt :=
  ⟨rfl, rfl⟩

/-- C6: for a successful WebPKI-mode probe, the extracted list applies the
handshake's verification outcome to the first certificate only: an Ok
outcome sets valid to true with no failure reason, an Err outcome sets
valid to false and records the reason, and in chain mode every non-leaf
certificate keeps both fields unset; non-chain mode yields exactly the
leaf with the outcome applied. -/
theorem c6_verify_outcome (lib : BoringLib) (c0 leaf : Cert) (rest : List Cert)
    (v : Except String Unit) :
    connectExtractCerts lib true (c0 :: rest) leaf v =
      (SimpleCert.fromX509 lib c0).applyVerifyResult v
        :: rest.map (SimpleCert.fromX509 lib)
    ∧ (v = .ok () →
        ((SimpleCert.fromX509 lib c0).applyVerifyResult v).validity =
          { valid := some true, verifyResult := none })
    ∧ (∀ e, v = .error e →
        ((SimpleCert.fromX509 lib c0).applyVerifyResult v).validity =
          { valid := some false, verifyResult := some e })
    ∧ (∀ c ∈ rest.map (SimpleCert.fromX509 lib),
        c.validity = { valid := none, verifyResult := none })
    ∧ connectExtractCerts lib false (c0 :: rest) leaf v =
        [(SimpleCert.fromX509 lib leaf).applyVerifyResult v] := by
  refine ⟨by simp [connectExtractCerts], ?_, ?_, ?_, by simp [connectExtractCerts]⟩
  · rintro rfl; rfl
  · rintro e rfl; rfl
  · intro c hc
    obtain ⟨x, _, rfl⟩ := List.mem_map.mp hc
    rfl

/-- C6 witness: a failed verification at a concrete chain records the
reason on the leaf. -/
theorem c6_verify_outcome_witness :
    ((SimpleCert.fromX509 demoLib [1]).applyVerifyResult
        (.error "certificate has expired")).validity =
      { valid := some false, verifyResult := some "certificate has expired" } :=
  (c6_verify_outcome demoLib [1] [3] [[2]]
    (.error "certificate has expired")).2.2.1 "certificate has expired" rfl

/-- C8: fingerprint computation is deterministic — building the
fingerprints twice from the same certificate DER yields the same three
strings — every fingerprint is a lower-case no-separator hex string, and
the modelled fixture digest hex-encodes to the documented literal. -/
theorem c8_fingerprint_determinism (lib : BoringLib) (cert : Cert) :
    (SimpleCert.fromX509 lib cert).fingerprints
      = (SimpleCert.fromX509 lib cert).fingerprints
    ∧ (∀ c ∈ ((SimpleCert.fromX509 lib cert).fingerprints.sha256).data, c ∈ hexAlphabet)
    ∧ (∀ c ∈ ((SimpleCert.fromX509 lib cert).fingerprints.sha1).data, c ∈ hexAlphabet)
    ∧ (∀ c ∈ ((SimpleCert.fromX509 lib cert).fingerprints.md5).data, c ∈ hexAlphabet)
    ∧ hexEncode lanFishSha256Digest =
        "876172fb012989edbc93d2c4c34399f1dff9b5e90f0f30b9c6d2ed82ec184620" := by
  refine ⟨rfl, ?_, ?_, ?_, by decide⟩
  · exact mem_hexChars_mem_hexAlphabet (lib.digest .sha256 cert)
  · exact mem_hexChars_mem_hexAlphabet (lib.digest .sha1 cert)
  · exact mem_hexChars_mem_hexAlphabet (lib.digest .md5 cert)

/-- C8 witness: the fixture digest's hex encoding equals the documented
literal, by the theorem at a concrete certificate. -/
theorem c8_fingerprint_determinism_witness :
    hexEncode lanFishSha256Digest =
      "876172fb012989edbc93d2c4c34399f1dff9b5e90f0f30b9c6d2ed82ec184620" :=
  (c8_fingerprint_determinism demoLib []).2.2.2.2

/-- C9: parse_host is partial — when the input is neither a literal socket
address nor a URL with a host, a port text that fails the u16 parse (such
as in example.com:https) panics, and a failed or empty DNS resolution
panics; both are modeled as the none result. -/
theorem c9_parse_host_panics (net : NetLib) :
    (net.parseSocketAddr "example.com:https" = none →
     net.parseUrl "example.com:https" = none →
     parseHost net "example.com:https" = none)
    ∧ (∀ s : String, net.parseSocketAddr s = none → net.parseUrl s = none →
        ':' ∉ s.data → net.toSocketAddrs s 443 = none →
        parseHost net s = none) := by
  constructor
  · intro h1 h2
    unfold parseHost
    rw [h1, h2]
    rfl
  · intro s h1 h2 hc hdns
    unfold parseHost
    rw [h1, h2]
    unfold parseHostFallback
    rw [splitOnChar_of_no_sep ':' s.data hc]
    unfold resolveDns
    rw [hdns]
    rfl

/-- C9 witness: both panic paths at concrete inputs, under a concrete
network oracle on which neither input is a socket address or URL and the
second input does not resolve. -/
theorem c9_parse_host_panics_witness :
    parseHost deadNet "example.com:https" = none
    ∧ parseHost deadNet "example.com" = none :=
  ⟨(c9_parse_host_panics deadNet).1 rfl rfl,
   (c9_parse_host_panics deadNet).2 "example.com" rfl rfl (by decide) rfl⟩

/-- C1 counterexample: a buffer with no BEGIN/END markers whose raw bytes
the library accepts as a valid DER certificate still produces zero
entities from the Parse::run pipeline — not one decoded certificate — and
even parse_auto returns the empty list (its DER fallback never runs,
because parse_pem succeeds vacuously with an empty collection). -/
theorem c1_counterexample :
    demoLib.x509FromDer (bufferBytes derBuf) = some (bufferBytes derBuf)
    ∧ parseRunPipeline demoLib derBuf = some ⟨[], []⟩
    ∧ parseAuto demoLib derBuf = Except.ok [] :=
  ⟨rfl, by decide, rfl⟩

/-- C1 (amended): a buffer containing no PEM BEGIN marker yields zero
scanner blocks, so the Parse::run pipeline emits zero entities; and
parse_auto likewise returns an empty certificate list on such a buffer,
since parse_pem collects zero boundaries into Ok and the DER fallback
fires only on an error. -/
theorem c1_no_marker_zero_entities (lib : BoringLib) (data : Buffer)
    (h : findSub beginTag data = none) :
    parseRunPipeline lib data = some ⟨[], []⟩
    ∧ parseAuto lib data = Except.ok [] := by
  have hm := pemMatches_eq_nil data h
  constructor
  · unfold parseRunPipeline okPems parsePems extractRawPems
    rw [hm]
    rfl
  · have hb : findSub BEGIN_MARKER data = none := findSub_none_mono (by decide) h
    have hcb := findCertBoundriesRaw_eq_nil data hb
    unfold parseAuto parsePem
    rw [hcb]
    rfl

/-- C1 witness: the amended statement at the concrete marker-free
buffer. -/
theorem c1_no_marker_zero_entities_witness :
    parseRunPipeline demoLib derBuf = some ⟨[], []⟩
    ∧ parseAuto demoLib derBuf = Except.ok [] :=
  c1_no_marker_zero_entities demoLib derBuf (by decide)

/-- C2 counterexample: a buffer with one well-formed PUBLIC KEY block,
under a library oracle that decodes it successfully, makes Parse::run hit
the todo-panic instead of returning normally with the key in an output
array. -/
theorem c2_counterexample :
    (∃ p ∈ okPems demoLib keyBuf, p.parsed.isKey = true)
    ∧ parseRunPipeline demoLib keyBuf = none := by
  constructor
  · decide
  · decide

/-- C2 (amended): when every successfully decoded block is a certificate
or CSR, the pipeline returns normally and the emitted object carries
exactly the keys certs and csrs, with each decoded entity in the
corresponding array in source order; any successfully decoded key block
makes the pipeline hit the unimplemented branch and panic. -/
theorem c2_certs_csrs_only (lib : BoringLib) (data : Buffer) :
    ((∀ p ∈ okPems lib data, p.parsed.isKey = false) →
      ∃ r, parseRunPipeline lib data = some r
        ∧ r.certs = (((okPems lib data).map Pem.parsed).filterMap
            ParsedPem.intoCert).map (SimpleCert.fromX509 lib)
        ∧ r.csrs = (((okPems lib data).map Pem.parsed).filterMap
            ParsedPem.intoCertReq).map (SimpleCsr.fromX509Req lib))
    ∧ ((∃ p ∈ okPems lib data, p.parsed.isKey = true) →
        parseRunPipeline lib data = none)
    ∧ ParseResult.jsonKeys = ["certs", "csrs"] := by
  unfold parseRunPipeline
  refine ⟨?_, ?_, rfl⟩
  · intro hall
    have hall' : ∀ q ∈ (okPems lib data).map Pem.parsed, q.isKey = false := by
      intro q hq
      obtain ⟨p, hp, rfl⟩ := List.mem_map.mp hq
      exact hall p hp
    have hsome := foldPushEntity_isSome lib ((okPems lib data).map Pem.parsed) ⟨[], []⟩ hall'
    obtain ⟨r, hr⟩ := Option.isSome_iff_exists.mp hsome
    refine ⟨r, hr, ?_, ?_⟩
    · have h2 := (foldPushEntity_some lib _ _ _ hr).1
      simpa using h2
    · have h2 := (foldPushEntity_some lib _ _ _ hr).2
      simpa using h2
  · rintro ⟨p, hp, hkey⟩
    exact foldPushEntity_none_of_key lib _ _
      ⟨p.parsed, List.mem_map_of_mem _ hp, hkey⟩

/-- C2 witness: the amended statement at the concrete certificate buffer:
the pipeline returns normally. -/
theorem c2_certs_csrs_only_witness :
    (parseRunPipeline demoLib certBuf).isSome = true := by
  obtain ⟨r, hr, -, -⟩ := (c2_certs_csrs_only demoLib certBuf).1 (by decide)
  rw [hr]
  rfl

/-- C3: the pipeline processes scanner blocks pointwise — the decoded
blocks of a buffer are the filterMap of a single-block decoder over the
regex matches, so a failure in one block never prevents any other block
from being decoded (inserting a failing block anywhere leaves the others'
results unchanged) — and when the entity loop completes, the number of
entities reaching the normalized model equals the number of well-formed
blocks, which is at most the number of scanned blocks. -/
theorem c3_block_independence (lib : BoringLib) (data : Buffer) :
    okPems lib data = (pemMatches data).filterMap (decodeOne lib)
    ∧ (∀ pre bad post, decodeOne lib bad = none →
        (pre ++ bad :: post).filterMap (decodeOne lib) =
          pre.filterMap (decodeOne lib) ++ post.filterMap (decodeOne lib))
    ∧ (∀ r, parseRunPipeline lib data = some r →
        r.certs.length + r.csrs.length = (okPems lib data).length)
    ∧ (okPems lib data).length ≤ (pemMatches data).length := by
  refine ⟨okPems_eq_filterMap_decodeOne lib data, ?_, ?_, ?_⟩
  · intro pre bad post hbad
    simp [List.filterMap_append, List.filterMap_cons, hbad]
  · intro r hr
    unfold parseRunPipeline at hr
    have hsome := foldPushEntity_some lib _ _ _ hr
    have hall := foldPushEntity_all_not_key lib _ _ _ hr
    have hcount := filterMap_count_of_not_key _ hall
    rw [hsome.1, hsome.2]
    simpa using hcount
  · rw [okPems_eq_filterMap_decodeOne]
    exact List.length_filterMap_le _ _

/-- C3 witness: independence and the entity count at concrete inputs — a
bad-base64 block contributes nothing and removes nothing, and the
certificate buffer's single well-formed block yields exactly one
entity. -/
theorem c3_block_independence_witness :
    (([] ++ badMatch :: []).filterMap (decodeOne demoLib) =
      ([] : List PemMatch).filterMap (decodeOne demoLib)
        ++ ([] : List PemMatch).filterMap (decodeOne demoLib))
    ∧ demoCertResult.certs.length + demoCertResult.csrs.length
        = (okPems demoLib certBuf).length :=
  ⟨(c3_block_independence demoLib certBuf).2.1 [] badMatch [] (by decide),
   (c3_block_independence demoLib certBuf).2.2.1 demoCertResult (by decide)⟩

/-- C7 counterexample: the pipeline keeps the original source span of the
single decoded entity of the indented buffer, yet the PEM-mode output of
print_certs is the library's canonical re-encoding, which differs from
that span byte for byte. -/
theorem c7_counterexample :
    (okPems demoLib indentedBuf).map (fun p => String.mk p.span) =
      ["-----BEGIN CERTIFICATE-----\n  QUFBQQ==\n  -----END CERTIFICATE-----"]
    ∧ parseRunPipeline demoLib indentedBuf = some demoCertResult
    ∧ printCertsPemMode demoCertResult.certs =
        "-----BEGIN CERTIFICATE-----\nQUFBQQ==\n-----END CERTIFICATE-----\n"
    ∧ printCertsPemMode demoCertResult.certs ≠
        "-----BEGIN CERTIFICATE-----\n  QUFBQQ==\n  -----END CERTIFICATE-----" := by
  refine ⟨by decide, by decide, by decide, by decide⟩

/-- C7 (amended): PEM-mode output is the concatenation of the library's
canonical PEM re-encodings (to_pem) of the decoded entities — certificates
first, then CSRs, each group in source order — not the original source
spans. -/
theorem c7_pem_output_reencodes (lib : BoringLib) (data : Buffer)
    (r : ParseResult) (h : parseRunPipeline lib data = some r) :
    printCertsPemMode r.certs ++ printCsrsPemMode r.csrs =
      String.join ((((okPems lib data).map Pem.parsed).filterMap
        ParsedPem.intoCert).map lib.toPem)
      ++ String.join ((((okPems lib data).map Pem.parsed).filterMap
        ParsedPem.intoCertReq).map lib.csrToPem) := by
  unfold parseRunPipeline at h
  have hs := foldPushEntity_some lib _ _ _ h
  simp only [printCertsPemMode, printCsrsPemMode, hs.1, hs.2]
  have h1 : SimpleCert.pem ∘ SimpleCert.fromX509 lib = lib.toPem := funext fun c => rfl
  have h2 : SimpleCsr.pem ∘ SimpleCsr.fromX509Req lib = lib.csrToPem := funext fun q => rfl
  simp [List.map_map, h1, h2]

/-- C7 witness: the amended statement at the indented buffer. -/
theorem c7_pem_output_reencodes_witness :
    printCertsPemMode demoCertResult.certs ++ printCsrsPemMode demoCertResult.csrs =
      String.join ((((okPems demoLib indentedBuf).map Pem.parsed).filterMap
        ParsedPem.intoCert).map demoLib.toPem)
      ++ String.join ((((okPems demoLib indentedBuf).map Pem.parsed).filterMap
        ParsedPem.intoCertReq).map demoLib.csrToPem) :=
  c7_pem_output_reencodes demoLib indentedBuf demoCertResult (by decide)

/-- C4 counterexample: on an input with two colons that is neither a
socket address nor a URL with a host, parse_host takes the segment
between the first and second colons as the port and succeeds with port 1,
whereas splitting on the first colon — as the claim words it — would make
the port text 1:2, which fails the u16 parse and panics. -/
theorem c4_counterexample :
    parseHost urlNoHostNet "localhost:1:2" =
      some ("localhost", ⟨"127.0.0.1", 1⟩)
    ∧ parseHostClaimed urlNoHostNet "localhost:1:2" = none := by
  constructor
  · decide
  · decide

/-- C4 (amended): parse_host obeys the three-way tie-break in order — a
literal socket address is used directly with the IP's rendered string as
hostname and a result independent of the DNS oracle; else a URL with a
present host resolves that host through url.socket_addrs with default
port 443 and takes the first address; else the input is split on colons
with the first segment as host and the second segment as port text
(default port 443 when the input has no colon). -/
theorem c4_resolve_host_tiebreak (net : NetLib) (s : String) :
    (∀ a, net.parseSocketAddr s = some a →
      parseHost net s = some (a.ip, a)
      ∧ (∀ dns, parseHost { net with toSocketAddrs := dns } s = some (a.ip, a)))
    ∧ (∀ u h a rest, net.parseSocketAddr s = none → net.parseUrl s = some u →
        u.host = some h → u.socketAddrs 443 = some (a :: rest) →
        parseHost net s = some (h, a))
    ∧ (net.parseSocketAddr s = none →
       (net.parseUrl s = none ∨ ∃ u, net.parseUrl s = some u ∧ u.host = none) →
       parseHost net s = parseHostFallback net s
       ∧ (':' ∉ s.data → parseHostFallback net s = resolveDns net s 443)
       ∧ (∀ h p t, splitOnChar ':' s.data = h :: p :: t →
            parseHostFallback net s =
              match parseU16 (String.mk p) with
              | none => none
              | some port => resolveDns net (String.mk h) port)) := by
  refine ⟨?_, ?_, ?_⟩
  · intro a ha
    constructor
    · unfold parseHost; rw [ha]
    · intro dns
      unfold parseHost
      simp only []
      rw [show ({ net with toSocketAddrs := dns } : NetLib).parseSocketAddr = net.parseSocketAddr from rfl, ha]
  · intro u h a rest h1 h2 h3 h4
    unfold parseHost
    rw [h1]
    dsimp only
    rw [h2]
    dsimp only
    rw [h3]
    dsimp only
    rw [h4]
  · intro h1 h2
    refine ⟨?_, ?_, ?_⟩
    · unfold parseHost
      rw [h1]
      dsimp only
      rcases h2 with h2 | ⟨u, hu, hh⟩
      · rw [h2]
      · rw [hu]
        dsimp only
        rw [hh]
    · intro hc
      unfold parseHostFallback
      rw [splitOnChar_of_no_sep ':' s.data hc]
      rfl
    · intro h p t hsplit
      unfold parseHostFallback
      rw [hsplit]
      rfl

/-- C4 witness: the amended fallback at the concrete input with one
colon resolves the first segment with the parsed port. -/
theorem c4_resolve_host_tiebreak_witness :
    parseHost demoNet "example.com:8443" =
      some ("example.com", ⟨"93.184.216.34", 8443⟩) := by
  have h := (c4_resolve_host_tiebreak demoNet "example.com:8443").2.2 rfl (Or.inl rfl)
  rw [h.1]
  decide

end Pls
